import Mathlib

/-
  Verification of the simple-pubsub event router.

  The development shallowly embeds the TypeScript source: the
  `PublishSubscribeService` (subscriber registry, FIFO event queue,
  `_isPublishing` re-entrancy guard and the synchronous drain loop of
  `publish`), the four event classes, and the four subscriber classes
  (`MachineSaleSubscriber`, `MachineRefillSubscriber`,
  `StockWarningSubscriber`, `StockLoggerSubscriber`).

  Shared mutable `Machine` objects are modelled by a heap
  (`List Machine`) addressed by position; subscriber scopes hold
  references (indices) into that heap, so a mutation made by one
  subscriber is observed by the others, exactly as the TypeScript
  objects are shared by reference.  JavaScript `Map`s are modelled by
  insertion-ordered association lists with `Map` semantics (`set`
  replaces the entry of an existing key in place and appends new keys
  at the tail).

  The router is parametric over the subscriber implementation
  (`SubImpl`), mirroring the fact that `publish` invokes handlers only
  through the `ISubscriber` interface.  A handler invocation reports
  the updated world, the service calls it performed while running
  (re-entrant `publish`, `unsubscribe`), whether it threw, and the
  events it returned.  The drain loop is indexed by fuel: `none` means
  the modelled execution was cut off, never that the program errs.
-/

namespace SimplePubSub

/-- Events of the system: one constructor per event class of the source
(`MachineSaleEvent`, `MachineRefillEvent`, `LowStockWarningEvent`,
`StockLevelOkEvent`), carrying the class's payload fields. -/
inductive Event : Type
  | sale (sold : Int) (machineId : String)
  | refill (refillQty : Int) (machineId : String)
  | lowStockWarning (machineId : String)
  | stockLevelOk (machineId : String)
deriving DecidableEq

/-- The `type()` discriminator of each event class. -/
def Event.type : Event → String
  | .sale _ _ => "sale"
  | .refill _ _ => "refill"
  | .lowStockWarning _ => "low_stock_warning"
  | .stockLevelOk _ => "stock_level_ok"

/-- The `machineId()` routing key of each event class. -/
def Event.machineId : Event → String
  | .sale _ i => i
  | .refill _ i => i
  | .lowStockWarning i => i
  | .stockLevelOk i => i

/-- A vending machine object: fixed `id`, mutable `stockLevel`
(no floor is enforced, the level may go negative). -/
structure Machine : Type where
  id : String
  stockLevel : Int
deriving DecidableEq

/-- Lookup in an insertion-ordered association list, as JavaScript
`Map.prototype.get`. -/
def jmapGet {α : Type} : List (String × α) → String → Option α
  | [], _ => none
  | p :: m, k => if p.1 = k then some p.2 else jmapGet m k

/-- Key-membership test, as `Map.prototype.has`. -/
def jmapHas {α : Type} : List (String × α) → String → Bool
  | [], _ => false
  | p :: m, k => if p.1 = k then true else jmapHas m k

/-- Update, as `Map.prototype.set`: replace the entry of an existing key
in place, append a new key at the tail (insertion order). -/
def jmapSet {α : Type} : List (String × α) → String → α → List (String × α)
  | [], k, v => [(k, v)]
  | p :: m, k, v => if p.1 = k then (k, v) :: m else p :: jmapSet m k v

/-- Removal, as `Map.prototype.delete`: drop the entry of the key
(keys are unique in every map built by `set`). -/
def jmapDelete {α : Type} : List (String × α) → String → List (String × α)
  | [], _ => []
  | p :: m, k => if p.1 = k then m else p :: jmapDelete m k

/-- The `id` of the machine object a heap reference points to. -/
def idOfRef (heap : List Machine) (r : Nat) : Option String :=
  (heap.get? r).map Machine.id

/-- `findIndex((m) => m.id === event.machineId())` over a subscriber's
machine list, returning the machine reference found there (the source
immediately indexes the list with the found index). -/
def scopeFind (heap : List Machine) : List Nat → String → Option Nat
  | [], _ => none
  | r :: scope, mid =>
    if idOfRef heap r = some mid then some r else scopeFind heap scope mid

/-- `removeMachine` body shared verbatim by `MachineSaleSubscriber`,
`MachineRefillSubscriber` and `StockLoggerSubscriber`:
`this.machines = this.machines.filter((m) => m.id !== machine.id)`. -/
def scopeRemove (heap : List Machine) : List Nat → String → List Nat
  | [], _ => []
  | r :: scope, mid =>
    if idOfRef heap r = some mid then scopeRemove heap scope mid
    else r :: scopeRemove heap scope mid

/-- `MachineSaleSubscriber.removeMachine`: only the argument's `id` is
consulted. -/
def scopeRemoveMachine (heap : List Machine) (scope : List Nat) (m : Machine) :
    List Nat :=
  scopeRemove heap scope m.id

/-- `StockWarningSubscriber.removeMachine`:
`this.machines.delete(machine.id)`. -/
def warnRemoveMachine (entries : List (String × Nat × Bool)) (m : Machine) :
    List (String × Nat × Bool) :=
  jmapDelete entries m.id

/-- `MachineSaleSubscriber.handle`: find the machine by id in this
subscriber's scope (return if absent), then — only for a
`MachineSaleEvent` — subtract the sold quantity from that machine's
stock level.  The method returns void. -/
def saleHandle (heap : List Machine) (scope : List Nat) (e : Event) :
    List Machine :=
  match scopeFind heap scope e.machineId with
  | none => heap
  | some r =>
    match e with
    | .sale sold _ =>
      match heap.get? r with
      | some m => heap.set r { m with stockLevel := m.stockLevel - sold }
      | none => heap
    | _ => heap

/-- `MachineRefillSubscriber.handle`: as `saleHandle`, but adds the
refill quantity for a `MachineRefillEvent`. -/
def refillHandle (heap : List Machine) (scope : List Nat) (e : Event) :
    List Machine :=
  match scopeFind heap scope e.machineId with
  | none => heap
  | some r =>
    match e with
    | .refill q _ =>
      match heap.get? r with
      | some m => heap.set r { m with stockLevel := m.stockLevel + q }
      | none => heap
    | _ => heap

/-- `StockWarningSubscriber.handle`: per-machine edge-triggered
threshold detector.  The map stores `(machine reference, warned flag)`
per machine id; the machine's current (post-mutation) stock level is
read through the shared reference.  Below 3 with the flag clear: set
the flag, return a `LowStockWarningEvent`; at or above 3 with the flag
set: clear the flag, return a `StockLevelOkEvent`; otherwise return
nothing. -/
def warnHandle (heap : List Machine) (entries : List (String × Nat × Bool))
    (e : Event) : List (String × Nat × Bool) × List Event :=
  match jmapGet entries e.machineId with
  | none => (entries, [])
  | some (r, warned) =>
    match heap.get? r with
    | none => (entries, [])
    | some m =>
      if m.stockLevel < 3 ∧ warned = false then
        (jmapSet entries e.machineId (r, true), [.lowStockWarning m.id])
      else if 3 ≤ m.stockLevel ∧ warned = true then
        (jmapSet entries e.machineId (r, false), [.stockLevelOk m.id])
      else (entries, [])

/-- Left-to-right insertion of `(id, (machine, false))` pairs, as the
`Map` constructor consumes its argument list. -/
def warnInitAux (heap : List Machine) (acc : List (String × Nat × Bool)) :
    List Nat → List (String × Nat × Bool)
  | [] => acc
  | r :: refs =>
    match idOfRef heap r with
    | some i => warnInitAux heap (jmapSet acc i (r, false)) refs
    | none => warnInitAux heap acc refs

/-- `new Map(machines.map((m) => [m.id, [m, false]]))`: the warning
subscriber's constructor seeds every machine in scope with a clear
flag. -/
def warnInit (heap : List Machine) (refs : List Nat) :
    List (String × Nat × Bool) :=
  warnInitAux heap [] refs

/-- Internal state of one subscriber object, by class. -/
inductive HandlerState : Type
  | saleSub (scope : List Nat)
  | refillSub (scope : List Nat)
  | warningSub (entries : List (String × Nat × Bool))
  | loggerSub (scope : List Nat)
deriving DecidableEq

/-- The mutable world outside the router: the machine heap and the
subscriber objects (addressed by handler id). -/
structure World : Type where
  heap : List Machine
  handlers : List HandlerState
deriving DecidableEq

/-- A service call a handler makes on the router while it is running.
A re-entrant `publish` from inside a handler only enqueues (the guard
is set during every dispatch); `unsubscribe` rebinds the registry entry
to a freshly filtered array.  `subscribe` is never called from inside a
handler in this program and is not modelled as a mid-dispatch call. -/
inductive SvcCall : Type
  | publish (e : Event)
  | unsubscribe (t : String) (h : Nat)
deriving DecidableEq

/-- Result of one `handle(event)` invocation: the updated world, the
service calls performed while the handler ran, and either the returned
events (`IEvent[] | IEvent | void`, flattened to a list) or a thrown
exception. -/
inductive HandleRes (σ : Type) : Type
  | ok (w : σ) (calls : List SvcCall) (ret : List Event)
  | thrown (w : σ) (calls : List SvcCall)

/-- A subscriber implementation: what `handle` does, per handler id.
The router reaches handlers only through this interface. -/
structure SubImpl (σ : Type) : Type where
  handle : Nat → Event → σ → HandleRes σ

/-- State of one `PublishSubscribeService` instance together with the
world its handlers act on. -/
structure Router (σ : Type) : Type where
  subscribers : List (String × List Nat)
  eventQueue : List Event
  isPublishing : Bool
  world : σ
deriving DecidableEq

/-- A freshly constructed service over world `w`: empty registry, empty
queue, guard clear. -/
def mkRouter {σ : Type} (w : σ) : Router σ :=
  { subscribers := [], eventQueue := [], isPublishing := false, world := w }

/-- `this._subscribers.get(type) || []`. -/
def subsFor (subs : List (String × List Nat)) (t : String) : List Nat :=
  (jmapGet subs t).getD []

/-- `subscribe(type, handler)`: create the entry on first use, then push
the handler onto the type's list.  Repeat calls add repeat entries. -/
def subscribeR {σ : Type} (s : Router σ) (t : String) (h : Nat) : Router σ :=
  let subs0 := if jmapHas s.subscribers t then s.subscribers
               else jmapSet s.subscribers t []
  { s with subscribers := jmapSet subs0 t (subsFor subs0 t ++ [h]) }

/-- `handlers.filter((h) => h !== handler)`: drop every occurrence of
the handler (identity comparison). -/
def removeAll : List Nat → Nat → List Nat
  | [], _ => []
  | x :: xs, h => if x = h then removeAll xs h else x :: removeAll xs h

/-- `unsubscribe(type, handler)`: return unchanged when the type was
never subscribed, otherwise rebind the type to a new filtered list
(the previous list object is not mutated). -/
def unsubscribeR {σ : Type} (s : Router σ) (t : String) (h : Nat) : Router σ :=
  if jmapHas s.subscribers t then
    { s with subscribers :=
        jmapSet s.subscribers t (removeAll (subsFor s.subscribers t) h) }
  else s

/-- Result of one dispatch step (the `for (const handler of handlers)`
loop over one dequeued event): the state afterwards and the handler
invocations that happened, or the state at the point a handler threw. -/
inductive DStep (σ : Type) : Type
  | ok (s : Router σ) (invoked : List (Nat × Event))
  | exn (s : Router σ) (invoked : List (Nat × Event))
deriving DecidableEq

/-- Result of a drain (or of `publish`): the state, the events handled
(dequeued) in order, and the handler invocations in order; `exn` is the
state at the point a handler exception escaped. -/
inductive Outcome (σ : Type) : Type
  | ok (s : Router σ) (handled : List Event) (invoked : List (Nat × Event))
  | exn (s : Router σ) (handled : List Event) (invoked : List (Nat × Event))
deriving DecidableEq

/-- Apply the service calls a handler made while running.  A `publish`
call finding the guard set appends to the shared queue and returns at
once (source lines 32-34); no handler in this development runs while
the guard is clear, so a nested top-level drain is left unmodelled
(`none`).  An `unsubscribe` call rebinds the registry as above. -/
def applyCallsM {σ : Type} : List SvcCall → Router σ → Option (Router σ)
  | [], s => some s
  | .publish e :: cs, s =>
    if s.isPublishing then
      applyCallsM cs { s with eventQueue := s.eventQueue ++ [e] }
    else none
  | .unsubscribe t h :: cs, s => applyCallsM cs (unsubscribeR s t h)

/-- The inner loop of `publish` for one dequeued event: invoke each
handler of the captured list in order; apply the service calls it made;
push the events it returned onto the tail of the queue; stop and
propagate if it threw. -/
def dispatchM {σ : Type} (impl : SubImpl σ) : List Nat → Event → Router σ →
    Option (DStep σ)
  | [], _, s => some (.ok s [])
  | h :: hs, e, s =>
    match impl.handle h e s.world with
    | .ok w calls ret =>
      match applyCallsM calls { s with world := w } with
      | none => none
      | some s1 =>
        match dispatchM impl hs e
            { s1 with eventQueue := s1.eventQueue ++ ret } with
        | none => none
        | some (.ok s2 inv) => some (.ok s2 ((h, e) :: inv))
        | some (.exn s2 inv) => some (.exn s2 ((h, e) :: inv))
    | .thrown w calls =>
      match applyCallsM calls { s with world := w } with
      | none => none
      | some s1 => some (.exn s1 [(h, e)])

/-- The `while (this._eventQueue.length > 0)` loop: shift the head
event, look up the handler list for its type at that moment, dispatch,
repeat.  Fuel bounds the number of iterations modelled. -/
def drainM {σ : Type} (impl : SubImpl σ) : Nat → Router σ → Option (Outcome σ)
  | 0, s =>
    match s.eventQueue with
    | [] => some (.ok s [] [])
    | _ :: _ => none
  | fuel + 1, s =>
    match s.eventQueue with
    | [] => some (.ok s [] [])
    | e :: rest =>
      match dispatchM impl (subsFor s.subscribers e.type) e
          { s with eventQueue := rest } with
      | none => none
      | some (.exn s1 inv1) => some (.exn s1 [e] inv1)
      | some (.ok s1 inv1) =>
        match drainM impl fuel s1 with
        | none => none
        | some (.ok s2 h2 inv2) => some (.ok s2 (e :: h2) (inv1 ++ inv2))
        | some (.exn s2 h2 inv2) => some (.exn s2 (e :: h2) (inv1 ++ inv2))

/-- `publish(event)` (source lines 31-59): push the event; if the guard
is set return at once; otherwise set the guard, drain the queue, and
clear the guard after the loop.  There is no try/finally: when a
handler throws, the guard is left set and the exception escapes. -/
def publishM {σ : Type} (impl : SubImpl σ) (fuel : Nat) (s : Router σ)
    (e : Event) : Option (Outcome σ) :=
  let s1 := { s with eventQueue := s.eventQueue ++ [e] }
  if s1.isPublishing then some (.ok s1 [] [])
  else
    match drainM impl fuel { s1 with isPublishing := true } with
    | none => none
    | some (.ok s2 h inv) => some (.ok { s2 with isPublishing := false } h inv)
    | some (.exn s2 h inv) => some (.exn s2 h inv)

/-- The concrete subscriber implementation of the source program: each
handler id addresses one subscriber object in the world; `handle`
dispatches on its class.  None of these handlers calls back into the
service and none throws. -/
def machineImpl : SubImpl World where
  handle h e w :=
    match w.handlers.get? h with
    | some (.saleSub scope) => .ok { w with heap := saleHandle w.heap scope e } [] []
    | some (.refillSub scope) => .ok { w with heap := refillHandle w.heap scope e } [] []
    | some (.warningSub entries) =>
      let p := warnHandle w.heap entries e
      .ok { w with handlers := w.handlers.set h (.warningSub p.1) } [] p.2
    | some (.loggerSub _) => .ok w [] []
    | none => .ok w [] []

/-- `removeMachine` called on subscriber object `h` of the world. -/
def removeMachineW (w : World) (h : Nat) (m : Machine) : World :=
  match w.handlers.get? h with
  | some (.saleSub scope) =>
    { w with handlers := w.handlers.set h (.saleSub (scopeRemoveMachine w.heap scope m)) }
  | some (.refillSub scope) =>
    { w with handlers := w.handlers.set h (.refillSub (scopeRemoveMachine w.heap scope m)) }
  | some (.warningSub entries) =>
    { w with handlers := w.handlers.set h (.warningSub (warnRemoveMachine entries m)) }
  | some (.loggerSub scope) =>
    { w with handlers := w.handlers.set h (.loggerSub (scopeRemoveMachine w.heap scope m)) }
  | none => w

/-- Current stock level of the machine with the given id (observation
helper). -/
def stockOf : List Machine → String → Option Int
  | [], _ => none
  | m :: hs, i => if m.id = i then some m.stockLevel else stockOf hs i

/-- The handled-events trace of a run, when it completed. -/
def handledOf {σ : Type} : Option (Outcome σ) → Option (List Event)
  | some (.ok _ h _) => some h
  | some (.exn _ h _) => some h
  | none => none

/-- The state after a run that returned normally. -/
def okState {σ : Type} : Option (Outcome σ) → Option (Router σ)
  | some (.ok s _ _) => some s
  | _ => none

/-- The three machines of the demo driver, each starting at stock 10. -/
def demoMachines : List Machine :=
  [{ id := "001", stockLevel := 10 }, { id := "002", stockLevel := 10 },
   { id := "003", stockLevel := 10 }]

/-- The world of the demo driver: the subscriber objects (handler ids
0 = sale, 1 = refill, 2 = stock warning, 3 = logger) all share the
three machines. -/
def demoWorld : World :=
  { heap := demoMachines
  , handlers :=
      [ .saleSub [0, 1, 2]
      , .refillSub [0, 1, 2]
      , .warningSub (warnInit demoMachines [0, 1, 2])
      , .loggerSub [0, 1, 2] ] }

/-- The subscriptions made by the demo driver, in its order: sale → the
sale subscriber then the warning subscriber, refill → the refill
subscriber then the warning subscriber, the two derived types → the
logger. -/
def demoRouter : Router World :=
  subscribeR (subscribeR (subscribeR (subscribeR (subscribeR (subscribeR
    (mkRouter demoWorld) "sale" 0) "refill" 1) "sale" 2) "refill" 2)
    "low_stock_warning" 3) "stock_level_ok" 3

/-- One top-level publish of the demo system, with ample fuel. -/
def pubW (s : Router World) (e : Event) : Option (Outcome World) :=
  publishM machineImpl 20 s e

/-- Subscriber implementation for the ordering scenario: while handling
any event, handler 0 re-entrantly publishes `b` and returns nothing,
handler 1 returns the derived event `c`; every other id is inert. -/
def abcImpl (b c : Event) : SubImpl Unit where
  handle h _ w :=
    if h = 0 then .ok w [.publish b] []
    else if h = 1 then .ok w [] [c]
    else .ok w [] []

/-- Router for the ordering scenario: handlers 0 and 1 subscribed to
type `t`, in that order, over a unit world. -/
def abcRouter (t : String) : Router Unit :=
  subscribeR (subscribeR (mkRouter ()) t 0) t 1

/-- A subscriber whose handler publishes a derived event while running
and then throws. -/
def throwImpl : SubImpl Unit where
  handle _ _ w := .thrown w [.publish (.refill 1 "001")]

/-- Router with the throwing subscriber registered for "sale". -/
def throwRouter : Router Unit :=
  subscribeR (mkRouter ()) "sale" 0

/-- Subscriber implementation for the mid-dispatch unsubscribe
scenario: while handling, handler 0 unsubscribes handler 1 and then
itself from "sale"; every other id is inert. -/
def unsubImpl : SubImpl Unit where
  handle h _ w :=
    if h = 0 then .ok w [.unsubscribe "sale" 1, .unsubscribe "sale" 0] []
    else .ok w [] []

/-- Router with handlers 0 and 1 registered for "sale". -/
def unsubRouter : Router Unit :=
  subscribeR (subscribeR (mkRouter ()) "sale" 0) "sale" 1

/- Scenario runs mirroring the driver's TEST 1 and TEST 2: machine 001
drops 10 → 6 → 2 → 1 through three sales, then recovers 1 → 3 → 8
through two refills. -/

/-- First sale of 4: level 10 → 6. -/
def c4r1 : Option (Outcome World) := pubW demoRouter (.sale 4 "001")

/-- State after the first sale. -/
def c4s1 : Router World := (okState c4r1).getD demoRouter

/-- Second sale of 4: level 6 → 2, crossing below the threshold. -/
def c4r2 : Option (Outcome World) := pubW c4s1 (.sale 4 "001")

/-- State after the second sale. -/
def c4s2 : Router World := (okState c4r2).getD demoRouter

/-- Third sale of 1: level 2 → 1, still below the threshold. -/
def c4r3 : Option (Outcome World) := pubW c4s2 (.sale 1 "001")

/-- State after the third sale. -/
def c4s3 : Router World := (okState c4r3).getD demoRouter

/-- Refill of 2: level 1 → 3, crossing back to the threshold. -/
def c5r1 : Option (Outcome World) := pubW c4s3 (.refill 2 "001")

/-- State after the first refill. -/
def c5s1 : Router World := (okState c5r1).getD demoRouter

/-- Refill of 5: level 3 → 8, still at or above the threshold. -/
def c5r2 : Option (Outcome World) := pubW c5s1 (.refill 5 "001")

/-- State after the second refill. -/
def c5s2 : Router World := (okState c5r2).getD demoRouter

/-- The driver's TEST 5 setup: the sale subscriber unsubscribed from
"sale" twice in a row (the second call is a no-op). -/
def c6Router : Router World :=
  unsubscribeR (unsubscribeR demoRouter "sale" 0) "sale" 0

/-- A sale published after the unsubscription. -/
def c6r1 : Option (Outcome World) := pubW c6Router (.sale 2 "001")

/-- State after that sale. -/
def c6s1 : Router World := (okState c6r1).getD demoRouter

/-- The driver's TEST 4 setup: machine 001 removed from the sale
subscriber's scope (the subscriber itself stays subscribed). -/
def c9Router : Router World :=
  { demoRouter with
      world := removeMachineW demoRouter.world 0 { id := "001", stockLevel := 10 } }

/-- A sale for the removed machine. -/
def c9r1 : Option (Outcome World) := pubW c9Router (.sale 2 "001")

/-- State after the sale for the removed machine. -/
def c9s1 : Router World := (okState c9r1).getD demoRouter

/-- A sale for a machine still in scope. -/
def c9r2 : Option (Outcome World) := pubW c9s1 (.sale 2 "002")

/-- State after the sale for the in-scope machine. -/
def c9s2 : Router World := (okState c9r2).getD demoRouter

/- Association-list lemmas for the JavaScript `Map` model. -/

/-- After `set k v`, `get k` yields `v`. -/
theorem jmapGet_set_self {α : Type} (m : List (String × α)) (k : String)
    (v : α) : jmapGet (jmapSet m k v) k = some v := by
  induction m with
  | nil => simp [jmapSet, jmapGet]
  | cons p m ih =>
    by_cases h : p.1 = k
    · simp [jmapSet, h, jmapGet]
    · simp [jmapSet, h, jmapGet, ih]

/-- `set k v` leaves every other key's binding unchanged. -/
theorem jmapGet_set_other {α : Type} (m : List (String × α)) (k k' : String)
    (v : α) (hne : k' ≠ k) : jmapGet (jmapSet m k v) k' = jmapGet m k' := by
  induction m with
  | nil => simp [jmapSet, jmapGet, Ne.symm hne]
  | cons p m ih =>
    by_cases h : p.1 = k
    · have hp : ¬ p.1 = k' := by rw [h]; exact Ne.symm hne
      simp [jmapSet, h, jmapGet, Ne.symm hne, hp]
    · simp [jmapSet, h, jmapGet, ih]

/-- Setting a key to the value it already holds leaves the map
unchanged. -/
theorem jmapSet_get_self {α : Type} (m : List (String × α)) (k : String)
    (v : α) (h : jmapGet m k = some v) : jmapSet m k v = m := by
  induction m with
  | nil => simp [jmapGet] at h
  | cons p m ih =>
    obtain ⟨a, b⟩ := p
    by_cases ha : a = k
    · subst ha
      simp [jmapGet] at h
      simp [jmapSet, h]
    · simp [jmapGet, ha] at h
      simp [jmapSet, ha, ih h]

/-- A present key has a binding. -/
theorem jmapGet_of_has {α : Type} (m : List (String × α)) (k : String)
    (h : jmapHas m k = true) : ∃ v, jmapGet m k = some v := by
  induction m with
  | nil => simp [jmapHas] at h
  | cons p m ih =>
    by_cases hp : p.1 = k
    · exact ⟨p.2, by simp [jmapGet, hp]⟩
    · simp [jmapHas, hp] at h
      simpa [jmapGet, hp] using ih h

/-- A key not among the stored keys has no binding. -/
theorem jmapGet_eq_none_of_not_mem (α : Type) (m : List (String × α))
    (k : String) (h : k ∉ m.map Prod.fst) : jmapGet m k = none := by
  induction m with
  | nil => simp [jmapGet]
  | cons p m ih =>
    rw [List.map_cons] at h
    have h1 : ¬ p.1 = k := fun hh => h (by rw [hh]; exact List.mem_cons_self _ _)
    have h2 : k ∉ m.map Prod.fst := fun hh => h (List.mem_cons_of_mem _ hh)
    simp [jmapGet, h1, ih h2]

/-- Membership after `delete`: every entry under a different key
survives. -/
theorem mem_jmapDelete_of_ne {α : Type} (m : List (String × α))
    (k0 k : String) (v : α) (hm : (k, v) ∈ m) (hne : k ≠ k0) :
    (k, v) ∈ jmapDelete m k0 := by
  induction m with
  | nil => simp at hm
  | cons p m ih =>
    by_cases hp : p.1 = k0
    · rcases List.mem_cons.mp hm with hh | hh
      · exact absurd (by rw [← hh] at hp; exact hp) hne
      · simpa [jmapDelete, hp] using hh
    · rcases List.mem_cons.mp hm with hh | hh
      · simp [jmapDelete, hp, hh]
      · simp [jmapDelete, hp, ih hh]

/-- With unique keys, `delete k` removes the binding of `k`. -/
theorem jmapGet_delete_self {α : Type} (m : List (String × α)) (k : String)
    (hnd : (m.map Prod.fst).Nodup) : jmapGet (jmapDelete m k) k = none := by
  induction m with
  | nil => simp [jmapDelete, jmapGet]
  | cons p m ih =>
    rw [List.map_cons, List.nodup_cons] at hnd
    by_cases hp : p.1 = k
    · subst hp
      simpa [jmapDelete] using jmapGet_eq_none_of_not_mem α m p.1 hnd.1
    · simp [jmapDelete, hp, jmapGet, ih hnd.2]

/- Lemmas on the handler-list filter and subscriber scopes. -/

/-- The filter of `unsubscribe` keeps exactly the elements that differ
from the removed handler, duplicates included. -/
theorem mem_removeAll (l : List Nat) (h x : Nat) :
    x ∈ removeAll l h ↔ x ∈ l ∧ x ≠ h := by
  induction l with
  | nil => simp [removeAll]
  | cons y l ih =>
    simp only [removeAll]
    by_cases hy : y = h
    · rw [if_pos hy]
      subst hy
      rw [ih, List.mem_cons]
      constructor
      · exact fun hh => ⟨Or.inr hh.1, hh.2⟩
      · rintro ⟨rfl | hm, hx⟩
        · exact absurd rfl hx
        · exact ⟨hm, hx⟩
    · rw [if_neg hy]
      simp only [List.mem_cons, ih]
      constructor
      · rintro (rfl | ⟨hm, hx⟩)
        · exact ⟨Or.inl rfl, fun hh => hy hh⟩
        · exact ⟨Or.inr hm, hx⟩
      · rintro ⟨rfl | hm, hx⟩
        · exact Or.inl rfl
        · exact Or.inr ⟨hm, hx⟩

/-- Filtering out an absent handler changes nothing. -/
theorem removeAll_of_not_mem (l : List Nat) (h : Nat) (hm : h ∉ l) :
    removeAll l h = l := by
  induction l with
  | nil => rfl
  | cons y l ih =>
    have hy : ¬ y = h := fun hh => hm (hh ▸ List.mem_cons_self _ _)
    have hm' : h ∉ l := fun hh => hm (List.mem_cons_of_mem _ hh)
    simp [removeAll, hy, ih hm']

/-- `removeMachine` keeps exactly the scope members whose machine id
differs from the given id. -/
theorem mem_scopeRemove (heap : List Machine) (scope : List Nat)
    (mid : String) (r : Nat) :
    r ∈ scopeRemove heap scope mid ↔
      r ∈ scope ∧ idOfRef heap r ≠ some mid := by
  induction scope with
  | nil => simp [scopeRemove]
  | cons x scope ih =>
    by_cases hx : idOfRef heap x = some mid
    · simp only [scopeRemove, if_pos hx, ih, List.mem_cons]
      constructor
      · rintro ⟨hr, hne⟩
        exact ⟨Or.inr hr, hne⟩
      · rintro ⟨rfl | hr, hne⟩
        · exact absurd hx hne
        · exact ⟨hr, hne⟩
    · simp only [scopeRemove, if_neg hx, List.mem_cons, ih]
      constructor
      · rintro (rfl | ⟨hr, hne⟩)
        · exact ⟨Or.inl rfl, hx⟩
        · exact ⟨Or.inr hr, hne⟩
      · rintro ⟨rfl | hr, hne⟩
        · exact Or.inl rfl
        · exact Or.inr ⟨hr, hne⟩

/-- `findIndex` fails when no scope member carries the id. -/
theorem scopeFind_eq_none (heap : List Machine) (scope : List Nat)
    (mid : String) (h : ∀ r ∈ scope, idOfRef heap r ≠ some mid) :
    scopeFind heap scope mid = none := by
  induction scope with
  | nil => rfl
  | cons x scope ih =>
    have hx := h x (List.mem_cons_self _ _)
    have h' : ∀ r ∈ scope, idOfRef heap r ≠ some mid :=
      fun r hr => h r (List.mem_cons_of_mem _ hr)
    simp [scopeFind, hx, ih h']

/-- After removing an id from a scope, `findIndex` on that id fails. -/
theorem scopeFind_scopeRemove (heap : List Machine) (scope : List Nat)
    (mid : String) : scopeFind heap (scopeRemove heap scope mid) mid = none :=
  scopeFind_eq_none heap _ mid
    (fun r hr => ((mem_scopeRemove heap scope mid r).mp hr).2)

/- Frame lemmas for the registry operations and the in-handler service
calls. -/

/-- `unsubscribe` touches only the registry. -/
theorem unsubscribeR_frame {σ : Type} (s : Router σ) (t : String) (h : Nat) :
    (unsubscribeR s t h).eventQueue = s.eventQueue ∧
    (unsubscribeR s t h).isPublishing = s.isPublishing ∧
    (unsubscribeR s t h).world = s.world := by
  unfold unsubscribeR
  split <;> exact ⟨rfl, rfl, rfl⟩

/-- While the guard is set, the calls a handler makes can only extend
the tail of the queue; the guard and the world they leave as the last
call left them, and the guard stays set. -/
theorem applyCallsM_publishing {σ : Type} (cs : List SvcCall)
    (s s' : Router σ) (hp : s.isPublishing = true)
    (h : applyCallsM cs s = some s') :
    s'.isPublishing = true ∧ ∃ tail, s'.eventQueue = s.eventQueue ++ tail := by
  induction cs generalizing s with
  | nil =>
    simp [applyCallsM] at h
    exact h ▸ ⟨hp, [], by simp⟩
  | cons c cs ih =>
    cases c with
    | publish e =>
      rw [applyCallsM, if_pos hp] at h
      obtain ⟨hf, tail, ht⟩ :=
        ih { s with eventQueue := s.eventQueue ++ [e] } hp h
      refine ⟨hf, e :: tail, ?_⟩
      rw [ht]
      simp
    | unsubscribe t hd =>
      rw [applyCallsM] at h
      obtain ⟨hq, hf, _⟩ := unsubscribeR_frame s t hd
      obtain ⟨hf', tail, ht⟩ := ih _ (hf.trans hp) h
      exact ⟨hf', tail, by rw [ht, hq]⟩

/-- The dispatch loop invokes exactly the handlers of the captured
list, in order, once each — whatever registry changes the handlers make
while running. -/
theorem dispatchM_ok_invoked {σ : Type} (impl : SubImpl σ) (hs : List Nat)
    (e : Event) (s s' : Router σ) (inv : List (Nat × Event))
    (h : dispatchM impl hs e s = some (.ok s' inv)) :
    inv = hs.map (fun hd => (hd, e)) := by
  induction hs generalizing s s' inv with
  | nil =>
    simp [dispatchM] at h
    simp [h.2.symm]
  | cons hd tl ih =>
    rw [dispatchM] at h
    split at h
    · split at h
      · cases h
      · split at h
        · cases h
        · next s2 inv2 hd2 =>
          simp at h
          rw [← h.2]
          simp [ih _ _ _ hd2]
        · next s2 inv2 hd2 => simp at h
    · split at h
      · cases h
      · simp at h

/-- While the guard is set, one dispatch step only appends to the tail
of the queue (the handlers' returned events and their re-entrant
publishes), and the guard stays set. -/
theorem dispatchM_queue_extend {σ : Type} (impl : SubImpl σ) (hs : List Nat)
    (e : Event) (s s' : Router σ) (inv : List (Nat × Event))
    (hp : s.isPublishing = true)
    (h : dispatchM impl hs e s = some (.ok s' inv)) :
    s'.isPublishing = true ∧ ∃ tail, s'.eventQueue = s.eventQueue ++ tail := by
  induction hs generalizing s s' inv with
  | nil =>
    simp [dispatchM] at h
    exact h.1 ▸ ⟨hp, [], by simp⟩
  | cons hd tl ih =>
    rw [dispatchM] at h
    split at h
    · next w calls ret hh =>
      split at h
      · cases h
      · next s1 hac =>
        have hpw : ({ s with world := w } : Router σ).isPublishing = true := hp
        obtain ⟨hf1, t1, ht1⟩ := applyCallsM_publishing calls _ _ hpw hac
        split at h
        · cases h
        · next s2 inv2 hd2 =>
          simp at h
          obtain ⟨hs2, hinv⟩ := h
          obtain ⟨hf2, t2, ht2⟩ :=
            ih { s1 with eventQueue := s1.eventQueue ++ ret } s2 inv2 hf1 hd2
          subst hs2
          refine ⟨hf2, t1 ++ ret ++ t2, ?_⟩
          rw [ht2]
          simp only [] at ht1
          simp [ht1, List.append_assoc]
        · next s2 inv2 hd2 => simp at h
    · next w calls hh =>
      split at h
      · cases h
      · simp at h

/-- A drain that returned normally emptied the queue (the `while` loop
exits only on an empty queue). -/
theorem drainM_ok_empty {σ : Type} (impl : SubImpl σ) (fuel : Nat)
    (s s' : Router σ) (hd : List Event) (inv : List (Nat × Event))
    (h : drainM impl fuel s = some (.ok s' hd inv)) : s'.eventQueue = [] := by
  induction fuel generalizing s hd inv with
  | zero =>
    rw [drainM] at h
    split at h
    · next hq =>
      simp at h
      rw [← h.1, hq]
    · cases h
  | succ fuel ih =>
    rw [drainM] at h
    split at h
    · next hq =>
      simp at h
      rw [← h.1, hq]
    · next e rest hq =>
      split at h
      · cases h
      · next s1 inv1 hdp => simp at h
      · next s1 inv1 hdp =>
        split at h
        · cases h
        · next s2 h2 inv2 hdr =>
          simp at h
          rw [h.1] at hdr
          exact ih _ _ _ hdr
        · next s2 h2 inv2 hdr => simp at h

/-- The drain dequeues the head of the queue first: the handled trace
of a completed drain over a non-empty queue starts with the head
event. -/
theorem drainM_ok_head {σ : Type} (impl : SubImpl σ) (fuel : Nat)
    (s s' : Router σ) (e : Event) (rest hd : List Event)
    (inv : List (Nat × Event)) (hq : s.eventQueue = e :: rest)
    (h : drainM impl fuel s = some (.ok s' hd inv)) : ∃ t, hd = e :: t := by
  obtain ⟨subs, q, flag, w⟩ := s
  change q = e :: rest at hq
  subst hq
  cases fuel with
  | zero => simp [drainM] at h
  | succ fuel =>
    simp only [drainM] at h
    split at h
    · cases h
    · simp at h
    · next s1 inv1 hdp =>
      split at h
      · cases h
      · next s2 h2 inv2 hdr =>
        simp at h
        exact ⟨h2, h.2.1.symm⟩
      · next s2 h2 inv2 hdr => simp at h

/-- The handler invocations of a completed drain over a non-empty queue
start with one invocation per handler registered for the head event's
type at the moment it was dequeued, in registration order. -/
theorem drainM_invoked_prefix {σ : Type} (impl : SubImpl σ) (fuel : Nat)
    (s s' : Router σ) (e : Event) (rest hd : List Event)
    (inv : List (Nat × Event)) (hq : s.eventQueue = e :: rest)
    (h : drainM impl fuel s = some (.ok s' hd inv)) :
    ∃ tail,
      inv = (subsFor s.subscribers e.type).map (fun hdl => (hdl, e)) ++ tail := by
  obtain ⟨subs, q, flag, w⟩ := s
  change q = e :: rest at hq
  subst hq
  cases fuel with
  | zero => simp [drainM] at h
  | succ fuel =>
    simp only [drainM] at h
    split at h
    · cases h
    · simp at h
    · next s1 inv1 hdp =>
      split at h
      · cases h
      · next s2 h2 inv2 hdr =>
        simp at h
        refine ⟨inv2, ?_⟩
        rw [← h.2.2, dispatchM_ok_invoked impl _ e _ s1 inv1 hdp]
      · next s2 h2 inv2 hdr => simp at h

/-- C1: the router dispatches events strictly in enqueue order — the
drain always dequeues the head of the queue, and everything produced
during a dispatch step (re-entrant publishes and handler-returned
events) is appended to the tail of the queue, never the head.  In the
scenario where A's first handler re-entrantly publishes B while A is
being drained and A's second handler returns the derived event C, the
handled order is exactly A, then B, then C. -/
theorem c1_fifo_order_tail_append :
    (∀ (σ : Type) (impl : SubImpl σ) (hs : List Nat) (e : Event)
        (s s' : Router σ) (inv : List (Nat × Event)),
        s.isPublishing = true →
        dispatchM impl hs e s = some (.ok s' inv) →
        ∃ tail, s'.eventQueue = s.eventQueue ++ tail) ∧
    (∀ (σ : Type) (impl : SubImpl σ) (fuel : Nat) (s s' : Router σ)
        (e : Event) (rest hd : List Event) (inv : List (Nat × Event)),
        s.eventQueue = e :: rest →
        drainM impl fuel s = some (.ok s' hd inv) →
        ∃ t, hd = e :: t) ∧
    (∀ (qa qb : Int) (ia ib ic : String),
        publishM (abcImpl (.refill qb ib) (.lowStockWarning ic)) 10
            (abcRouter "sale") (.sale qa ia)
          = some (.ok
              { subscribers := [("sale", [0, 1])], eventQueue := [],
                isPublishing := false, world := () }
              [.sale qa ia, .refill qb ib, .lowStockWarning ic]
              [(0, .sale qa ia), (1, .sale qa ia)])) := by
  refine ⟨?_, ?_, ?_⟩
  · intro σ impl hs e s s' inv hp h
    exact (dispatchM_queue_extend impl hs e s s' inv hp h).2
  · intro σ impl fuel s s' e rest hd inv hq h
    exact drainM_ok_head impl fuel s s' e rest hd inv hq h
  · intro qa qb ia ib ic
    rfl

/-- Witness for C1, at a concrete dispatch step, a concrete drain, and
concrete events. -/
theorem c1_fifo_order_tail_append_witness :
    (∃ tail,
        ({ subscribers := [("sale", [0, 1])],
           eventQueue := [Event.refill 1 "b", Event.lowStockWarning "c"],
           isPublishing := true, world := () } : Router Unit).eventQueue
          = ([] : List Event) ++ tail) ∧
    (∃ t, [Event.sale 1 "a", Event.refill 1 "b", Event.lowStockWarning "c"]
        = Event.sale 1 "a" :: t) ∧
    publishM (abcImpl (.refill 2 "b") (.lowStockWarning "c")) 10
        (abcRouter "sale") (.sale 1 "a")
      = some (.ok
          { subscribers := [("sale", [0, 1])], eventQueue := [],
            isPublishing := false, world := () }
          [.sale 1 "a", .refill 2 "b", .lowStockWarning "c"]
          [(0, .sale 1 "a"), (1, .sale 1 "a")]) := by
  refine ⟨?_, ?_, c1_fifo_order_tail_append.2.2 1 2 "a" "b" "c"⟩
  · exact c1_fifo_order_tail_append.1 Unit
      (abcImpl (.refill 1 "b") (.lowStockWarning "c")) [0, 1] (.sale 1 "a")
      { subscribers := [("sale", [0, 1])], eventQueue := [],
        isPublishing := true, world := () }
      _ [(0, .sale 1 "a"), (1, .sale 1 "a")] rfl rfl
  · exact c1_fifo_order_tail_append.2.1 Unit
      (abcImpl (.refill 1 "b") (.lowStockWarning "c")) 10
      { subscribers := [("sale", [0, 1])], eventQueue := [.sale 1 "a"],
        isPublishing := true, world := () }
      { subscribers := [("sale", [0, 1])], eventQueue := [],
        isPublishing := true, world := () }
      (.sale 1 "a") []
      [Event.sale 1 "a", Event.refill 1 "b", Event.lowStockWarning "c"]
      [(0, .sale 1 "a"), (1, .sale 1 "a")] rfl rfl

/-- C2 counterexample: a top-level publish whose handler threw has
finished (the exception escaped to the caller, no publish is executing
any more), yet the drain flag of the resulting state is still set —
the flag is not false whenever no top-level publish is executing. -/
theorem c2_guard_counterexample :
    publishM throwImpl 10 throwRouter (.sale 1 "001")
      = some (.exn
          { subscribers := [("sale", [0])], eventQueue := [.refill 1 "001"],
            isPublishing := true, world := () }
          [.sale 1 "001"] [(0, .sale 1 "001")]) ∧
    ({ subscribers := [("sale", [0])], eventQueue := [.refill 1 "001"],
       isPublishing := true, world := () } : Router Unit).isPublishing
      = true := ⟨rfl, rfl⟩

/-- C2 (amended): a publish call made while a drain is active returns
immediately after enqueueing, changing nothing else; a publish call
that starts the drain and returns normally returns with the queue
empty and the drain flag clear.  (After a handler exception the flag
stays set; see the counterexample.) -/
theorem c2_publish_contract :
    (∀ (σ : Type) (impl : SubImpl σ) (fuel : Nat) (s : Router σ) (e : Event),
        s.isPublishing = true →
        publishM impl fuel s e
          = some (.ok { s with eventQueue := s.eventQueue ++ [e] } [] [])) ∧
    (∀ (σ : Type) (impl : SubImpl σ) (fuel : Nat) (s s' : Router σ)
        (e : Event) (hd : List Event) (inv : List (Nat × Event)),
        s.isPublishing = false →
        publishM impl fuel s e = some (.ok s' hd inv) →
        s'.eventQueue = [] ∧ s'.isPublishing = false) := by
  constructor
  · intro σ impl fuel s e hp
    simp [publishM, hp]
  · intro σ impl fuel s s' e hd inv hp h
    simp only [publishM, hp] at h
    rw [if_neg (by simp [hp])] at h
    split at h
    · cases h
    · next s2 h2 inv2 hdr =>
      simp at h
      rw [← h.1]
      exact ⟨drainM_ok_empty impl fuel _ s2 h2 inv2 hdr, rfl⟩
    · next s2 h2 inv2 hdr => simp at h

/-- Witness for C2, at a concrete re-entrant publish and a concrete
completed top-level publish. -/
theorem c2_publish_contract_witness :
    publishM (abcImpl (.refill 1 "b") (.lowStockWarning "c")) 10
        { subscribers := [("sale", [0, 1])], eventQueue := [],
          isPublishing := true, world := () } (.sale 1 "a")
      = some (.ok
          { subscribers := [("sale", [0, 1])], eventQueue := [.sale 1 "a"],
            isPublishing := true, world := () } [] []) ∧
    (({ subscribers := [("sale", [0, 1])], eventQueue := [],
        isPublishing := false, world := () } : Router Unit).eventQueue = [] ∧
     ({ subscribers := [("sale", [0, 1])], eventQueue := [],
        isPublishing := false, world := () } : Router Unit).isPublishing
       = false) := by
  constructor
  · exact c2_publish_contract.1 Unit
      (abcImpl (.refill 1 "b") (.lowStockWarning "c")) 10
      { subscribers := [("sale", [0, 1])], eventQueue := [],
        isPublishing := true, world := () } (.sale 1 "a") rfl
  · exact c2_publish_contract.2 Unit
      (abcImpl (.refill 1 "b") (.lowStockWarning "c")) 10
      (abcRouter "sale") _ (.sale 1 "a")
      [Event.sale 1 "a", Event.refill 1 "b", Event.lowStockWarning "c"]
      [(0, .sale 1 "a"), (1, .sale 1 "a")] rfl rfl

/-- C3 (the code at the failing input): when a handler throws during a
top-level publish, the exception does propagate synchronously to the
caller, but the router state is corrupted: the re-entrancy guard is
left set and the event the handler had published stays queued
undelivered, so a later publish only enqueues and never dispatches —
no new drain can ever start on this instance. -/
theorem c3_throw_leaves_guard_set :
    publishM throwImpl 10 throwRouter (.sale 1 "001")
      = some (.exn
          { subscribers := [("sale", [0])], eventQueue := [.refill 1 "001"],
            isPublishing := true, world := () }
          [.sale 1 "001"] [(0, .sale 1 "001")]) ∧
    publishM throwImpl 10
        { subscribers := [("sale", [0])], eventQueue := [.refill 1 "001"],
          isPublishing := true, world := () } (.sale 2 "001")
      = some (.ok
          { subscribers := [("sale", [0])],
            eventQueue := [.refill 1 "001", .sale 2 "001"],
            isPublishing := true, world := () } [] []) := ⟨rfl, rfl⟩

/-- C4: from the demo state (machine 001 at level 10, warning state OK,
threshold 3, sale and warning handlers subscribed to "sale" in that
order), sales of 4, 4, 1 drive the level 10 → 6 → 2 → 1 and emit
exactly one low-stock warning, during the dispatch of the second sale;
in general the warning handler emits its single low-stock event and
records the WARNED state exactly when the observed (post-mutation)
level is below 3 and the recorded state is OK. -/
theorem c4_low_stock_edge_trigger :
    (handledOf c4r1 = some [.sale 4 "001"] ∧
     stockOf c4s1.world.heap "001" = some 6) ∧
    (handledOf c4r2 = some [.sale 4 "001", .lowStockWarning "001"] ∧
     stockOf c4s2.world.heap "001" = some 2) ∧
    (handledOf c4r3 = some [.sale 1 "001"] ∧
     stockOf c4s3.world.heap "001" = some 1) ∧
    (∀ (heap : List Machine) (entries : List (String × Nat × Bool))
        (e : Event) (r : Nat) (warned : Bool) (m : Machine),
        jmapGet entries e.machineId = some (r, warned) →
        heap.get? r = some m →
        (((warnHandle heap entries e).2 = [.lowStockWarning m.id] ∧
          jmapGet (warnHandle heap entries e).1 e.machineId = some (r, true))
          ↔ (m.stockLevel < 3 ∧ warned = false))) := by
  refine ⟨⟨rfl, rfl⟩, ⟨rfl, rfl⟩, ⟨rfl, rfl⟩, ?_⟩
  intro heap entries e r warned m hg hm
  simp only [warnHandle, hg, hm]
  by_cases hc1 : m.stockLevel < 3 ∧ warned = false
  · simp [hc1, jmapGet_set_self]
  · by_cases hc2 : 3 ≤ m.stockLevel ∧ warned = true
    · simp [hc1, hc2, jmapGet_set_self]
    · simp [hc1, hc2]

/-- Witness for C4's general conjunct, at a machine at level 2 with a
clear flag. -/
theorem c4_low_stock_edge_trigger_witness :
    ((warnHandle [{ id := "001", stockLevel := 2 }] [("001", 0, false)]
        (.sale 4 "001")).2 = [.lowStockWarning "001"] ∧
     jmapGet (warnHandle [{ id := "001", stockLevel := 2 }]
        [("001", 0, false)] (.sale 4 "001")).1 "001" = some (0, true))
    ↔ ((2 : Int) < 3 ∧ false = false) :=
  c4_low_stock_edge_trigger.2.2.2 [{ id := "001", stockLevel := 2 }]
    [("001", 0, false)] (.sale 4 "001") 0 false
    { id := "001", stockLevel := 2 } rfl rfl

/-- C5: continuing from the state left by the three sales (level 1,
state WARNED), a refill of 2 (level 1 → 3) emits exactly one
stock-recovered event and a further refill of 5 (3 → 8) emits none; in
general the warning handler emits its single recovered event and
records the OK state exactly when the observed level is at least 3 and
the recorded state is WARNED, and it emits nothing exactly when the
observation leaves the machine on the side of the threshold its
recorded state already reflects. -/
theorem c5_recovery_edge_trigger :
    (handledOf c5r1 = some [.refill 2 "001", .stockLevelOk "001"] ∧
     stockOf c5s1.world.heap "001" = some 3) ∧
    (handledOf c5r2 = some [.refill 5 "001"] ∧
     stockOf c5s2.world.heap "001" = some 8) ∧
    (∀ (heap : List Machine) (entries : List (String × Nat × Bool))
        (e : Event) (r : Nat) (warned : Bool) (m : Machine),
        jmapGet entries e.machineId = some (r, warned) →
        heap.get? r = some m →
        ((((warnHandle heap entries e).2 = [.stockLevelOk m.id] ∧
           jmapGet (warnHandle heap entries e).1 e.machineId = some (r, false))
           ↔ (3 ≤ m.stockLevel ∧ warned = true)) ∧
         ((warnHandle heap entries e).2 = [] ↔
           ((m.stockLevel < 3 ∧ warned = true) ∨
            (3 ≤ m.stockLevel ∧ warned = false))))) := by
  refine ⟨⟨rfl, rfl⟩, ⟨rfl, rfl⟩, ?_⟩
  intro heap entries e r warned m hg hm
  simp only [warnHandle, hg, hm]
  by_cases hc1 : m.stockLevel < 3 ∧ warned = false
  · obtain ⟨h1, h2⟩ := hc1
    subst h2
    constructor
    · simp [h1]
      try omega
    · simp [h1]
      try omega
  · by_cases hc2 : 3 ≤ m.stockLevel ∧ warned = true
    · obtain ⟨h1, h2⟩ := hc2
      subst h2
      constructor
      · simp [h1, hc1, jmapGet_set_self]
      · simp [h1, hc1]
        try omega
    · constructor
      · simp [hc1, hc2]
      · simp [hc1, hc2]
        cases hw : warned with
        | false =>
          subst hw
          simp at hc1 hc2 ⊢
          omega
        | true =>
          subst hw
          simp at hc1 hc2 ⊢
          omega

/-- Witness for C5's general conjunct, at a machine at level 3 with a
set flag. -/
theorem c5_recovery_edge_trigger_witness :
    ((((warnHandle [{ id := "001", stockLevel := 3 }] [("001", 0, true)]
          (.refill 2 "001")).2 = [.stockLevelOk "001"] ∧
       jmapGet (warnHandle [{ id := "001", stockLevel := 3 }]
          [("001", 0, true)] (.refill 2 "001")).1 "001" = some (0, false))
       ↔ ((3 : Int) ≤ 3 ∧ true = true)) ∧
     ((warnHandle [{ id := "001", stockLevel := 3 }] [("001", 0, true)]
          (.refill 2 "001")).2 = [] ↔
       (((3 : Int) < 3 ∧ true = true) ∨ ((3 : Int) ≤ 3 ∧ true = false)))) :=
  c5_recovery_edge_trigger.2.2 [{ id := "001", stockLevel := 3 }]
    [("001", 0, true)] (.refill 2 "001") 0 true
    { id := "001", stockLevel := 3 } rfl rfl

/-- An absent key has no binding. -/
theorem jmapGet_eq_none_of_not_has {α : Type} (m : List (String × α))
    (k : String) (h : jmapHas m k = false) : jmapGet m k = none := by
  induction m with
  | nil => rfl
  | cons p m ih =>
    by_cases hp : p.1 = k
    · simp [jmapHas, hp] at h
    · simp [jmapHas, hp] at h
      simp [jmapGet, hp, ih h]

/-- A drain over an empty queue returns at once, for any fuel. -/
theorem drainM_nil {σ : Type} (impl : SubImpl σ) (fuel : Nat) (s : Router σ)
    (hq : s.eventQueue = []) : drainM impl fuel s = some (.ok s [] []) := by
  cases fuel <;> simp [drainM, hq]

/-- C6: `unsubscribe` removes every entry of the handler under the
given type, duplicates included; it is a no-op — not an error — when
the type was never subscribed or the handler is absent; other types are
untouched; and after the driver unsubscribes the sale handler from
"sale" (twice — the second call is a no-op), publishing a sale event
for machine 001 leaves that machine's stock unchanged at 10. -/
theorem c6_unsubscribe_semantics :
    (∀ (σ : Type) (s : Router σ) (t : String) (h : Nat),
        jmapHas s.subscribers t = false → unsubscribeR s t h = s) ∧
    (∀ (σ : Type) (s : Router σ) (t : String) (h : Nat),
        h ∉ subsFor s.subscribers t → unsubscribeR s t h = s) ∧
    (∀ (σ : Type) (s : Router σ) (t : String) (h x : Nat),
        x ∈ subsFor (unsubscribeR s t h).subscribers t ↔
          (x ∈ subsFor s.subscribers t ∧ x ≠ h)) ∧
    (∀ (σ : Type) (s : Router σ) (t t' : String) (h : Nat), t' ≠ t →
        subsFor (unsubscribeR s t h).subscribers t'
          = subsFor s.subscribers t') ∧
    (stockOf demoRouter.world.heap "001" = some 10 ∧
     jmapGet c6Router.subscribers "sale" = some [2] ∧
     handledOf c6r1 = some [.sale 2 "001"] ∧
     stockOf c6s1.world.heap "001" = some 10) := by
  refine ⟨?_, ?_, ?_, ?_, rfl, rfl, rfl, rfl⟩
  · intro σ s t h hh
    simp [unsubscribeR, hh]
  · intro σ s t h hn
    by_cases hh : jmapHas s.subscribers t
    · obtain ⟨v, hv⟩ := jmapGet_of_has _ _ hh
      have hsub : subsFor s.subscribers t = v := by simp [subsFor, hv]
      rw [unsubscribeR, if_pos hh, hsub,
        removeAll_of_not_mem v h (hsub ▸ hn), jmapSet_get_self _ _ _ hv]
    · simp [unsubscribeR, hh]
  · intro σ s t h x
    by_cases hh : jmapHas s.subscribers t
    · rw [unsubscribeR, if_pos hh]
      simp [subsFor, jmapGet_set_self, mem_removeAll]
    · have h0 : jmapGet s.subscribers t = none :=
        jmapGet_eq_none_of_not_has _ _ (by simpa using hh)
      simp [unsubscribeR, hh, subsFor, h0]
  · intro σ s t t' h hne
    by_cases hh : jmapHas s.subscribers t
    · rw [unsubscribeR, if_pos hh]
      simp [subsFor, jmapGet_set_other _ _ _ _ hne]
    · simp [unsubscribeR, hh]

/-- Witness for C6 at concrete registries. -/
theorem c6_unsubscribe_semantics_witness :
    unsubscribeR (mkRouter ()) "refill" 0 = mkRouter () ∧
    unsubscribeR (abcRouter "sale") "sale" 7 = abcRouter "sale" ∧
    ((0 : Nat) ∈ subsFor (unsubscribeR (abcRouter "sale") "sale" 1).subscribers
        "sale" ↔
      ((0 : Nat) ∈ subsFor (abcRouter "sale").subscribers "sale" ∧
       (0 : Nat) ≠ 1)) ∧
    subsFor (unsubscribeR (abcRouter "sale") "sale" 0).subscribers "refill"
      = subsFor (abcRouter "sale").subscribers "refill" := by
  refine ⟨?_, ?_, ?_, ?_⟩
  · exact c6_unsubscribe_semantics.1 Unit (mkRouter ()) "refill" 0 rfl
  · exact c6_unsubscribe_semantics.2.1 Unit (abcRouter "sale") "sale" 7
      (by decide)
  · exact c6_unsubscribe_semantics.2.2.1 Unit (abcRouter "sale") "sale" 1 0
  · exact c6_unsubscribe_semantics.2.2.2.1 Unit (abcRouter "sale") "sale"
      "refill" 0 (by decide)

/-- C7: the handler list for an event is captured when the event is
dequeued; the dispatch loop then invokes exactly those handlers, once
each, in order, whatever unsubscriptions the handlers perform while
running (`unsubscribe` rebinds the registry to a fresh filtered array
and cannot touch the captured list).  In the concrete scenario, handler
0 unsubscribes both handlers from "sale" mid-dispatch: the in-flight
event still reaches handler 1 exactly once and nothing crashes, and
only the next dequeued "sale" event sees the empty registry. -/
theorem c7_dispatch_snapshot :
    (∀ (σ : Type) (impl : SubImpl σ) (hs : List Nat) (e : Event)
        (s s' : Router σ) (inv : List (Nat × Event)),
        dispatchM impl hs e s = some (.ok s' inv) →
        inv = hs.map (fun hd => (hd, e))) ∧
    (∀ (σ : Type) (impl : SubImpl σ) (fuel : Nat) (s s' : Router σ)
        (e : Event) (rest hd : List Event) (inv : List (Nat × Event)),
        s.eventQueue = e :: rest →
        drainM impl fuel s = some (.ok s' hd inv) →
        ∃ tail,
          inv = (subsFor s.subscribers e.type).map (fun hdl => (hdl, e))
            ++ tail) ∧
    (publishM unsubImpl 10 unsubRouter (.sale 1 "001")
       = some (.ok { subscribers := [("sale", [])], eventQueue := [],
                     isPublishing := false, world := () }
           [.sale 1 "001"] [(0, .sale 1 "001"), (1, .sale 1 "001")]) ∧
     publishM unsubImpl 10
         { subscribers := [("sale", [])], eventQueue := [],
           isPublishing := false, world := () } (.sale 2 "001")
       = some (.ok { subscribers := [("sale", [])], eventQueue := [],
                     isPublishing := false, world := () }
           [.sale 2 "001"] [])) := by
  refine ⟨?_, ?_, rfl, rfl⟩
  · intro σ impl hs e s s' inv h
    exact dispatchM_ok_invoked impl hs e s s' inv h
  · intro σ impl fuel s s' e rest hd inv hq h
    exact drainM_invoked_prefix impl fuel s s' e rest hd inv hq h

/-- Witness for C7 at a concrete dispatch and drain. -/
theorem c7_dispatch_snapshot_witness :
    ([((0 : Nat), Event.sale 1 "001"), (1, Event.sale 1 "001")]
       = ([0, 1] : List Nat).map (fun hd => (hd, Event.sale 1 "001"))) ∧
    (∃ tail,
        [((0 : Nat), Event.sale 1 "001"), (1, Event.sale 1 "001")]
          = (subsFor unsubRouter.subscribers "sale").map
              (fun hdl => (hdl, Event.sale 1 "001")) ++ tail) := by
  constructor
  · exact c7_dispatch_snapshot.1 Unit unsubImpl [0, 1] (.sale 1 "001")
      { subscribers := [("sale", [0, 1])], eventQueue := [],
        isPublishing := true, world := () }
      { subscribers := [("sale", [])], eventQueue := [],
        isPublishing := true, world := () }
      [(0, .sale 1 "001"), (1, .sale 1 "001")] rfl
  · exact c7_dispatch_snapshot.2.1 Unit unsubImpl 10
      { subscribers := [("sale", [0, 1])], eventQueue := [.sale 1 "001"],
        isPublishing := true, world := () }
      { subscribers := [("sale", [])], eventQueue := [],
        isPublishing := true, world := () }
      (.sale 1 "001") [] [.sale 1 "001"]
      [(0, .sale 1 "001"), (1, .sale 1 "001")] rfl rfl

/-- C8: publishing an event whose type has no subscribed handlers
dispatches to an empty handler list and returns without error, leaving
the router exactly as it was; and an event whose machine id matches no
machine in a handler's scope leaves that handler's machines untouched
and produces no derived events (sale and refill mutate nothing, the
warning handler changes no state and emits nothing). -/
theorem c8_unknown_noop :
    (∀ (σ : Type) (impl : SubImpl σ) (fuel : Nat) (s : Router σ) (e : Event),
        s.eventQueue = [] → s.isPublishing = false →
        subsFor s.subscribers e.type = [] →
        publishM impl (fuel + 1) s e = some (.ok s [e] [])) ∧
    (∀ (heap : List Machine) (scope : List Nat) (e : Event),
        (∀ r ∈ scope, idOfRef heap r ≠ some e.machineId) →
        saleHandle heap scope e = heap ∧ refillHandle heap scope e = heap) ∧
    (∀ (heap : List Machine) (entries : List (String × Nat × Bool))
        (e : Event), jmapGet entries e.machineId = none →
        warnHandle heap entries e = (entries, [])) := by
  refine ⟨?_, ?_, ?_⟩
  · intro σ impl fuel s e hq hf hsub
    obtain ⟨subs, q, flag, w⟩ := s
    change q = [] at hq
    change flag = false at hf
    change subsFor subs e.type = [] at hsub
    subst hq
    subst hf
    simp [publishM, drainM, dispatchM, hsub, drainM_nil]
  · intro heap scope e hno
    have hf := scopeFind_eq_none heap scope e.machineId hno
    exact ⟨by simp [saleHandle, hf], by simp [refillHandle, hf]⟩
  · intro heap entries e hg
    simp [warnHandle, hg]

/-- Witness for C8: an event type nobody subscribed to, and an event
for a machine outside every scope. -/
theorem c8_unknown_noop_witness :
    publishM machineImpl (3 + 1) (mkRouter demoWorld) (.lowStockWarning "001")
      = some (.ok (mkRouter demoWorld) [.lowStockWarning "001"] []) ∧
    (saleHandle demoMachines [0, 1, 2] (.sale 1 "xyz") = demoMachines ∧
     refillHandle demoMachines [0, 1, 2] (.sale 1 "xyz") = demoMachines) ∧
    warnHandle demoMachines [("001", 0, false)] (.sale 1 "xyz")
      = ([("001", 0, false)], []) := by
  refine ⟨?_, ?_, ?_⟩
  · exact c8_unknown_noop.1 World machineImpl 3 (mkRouter demoWorld)
      (.lowStockWarning "001") rfl rfl rfl
  · exact c8_unknown_noop.2.1 demoMachines [0, 1, 2] (.sale 1 "xyz")
      (by decide)
  · exact c8_unknown_noop.2.2 demoMachines [("001", 0, false)]
      (.sale 1 "xyz") rfl

/-- C9: after `removeMachine(m)` on the sale subscriber, a sale event
carrying m's machine id no longer changes any machine (the handler's
scope holds no machine of that id any more), even though the subscriber
is still registered for "sale"; sales for machines still in scope keep
mutating their stock.  Concretely: with machine 001 removed from the
sale subscriber, a sale of 2 for 001 leaves its stock at 10 while the
sale subscriber is still in the "sale" registry entry, and a sale of 2
for 002 drops 002's stock to 8. -/
theorem c9_machine_scope_removal :
    (∀ (heap : List Machine) (scope : List Nat) (m : Machine) (e : Event),
        e.machineId = m.id →
        saleHandle heap (scopeRemoveMachine heap scope m) e = heap) ∧
    (handledOf c9r1 = some [.sale 2 "001"] ∧
     stockOf c9s1.world.heap "001" = some 10 ∧
     jmapGet c9s1.subscribers "sale" = some [0, 2] ∧
     handledOf c9r2 = some [.sale 2 "002"] ∧
     stockOf c9s2.world.heap "002" = some 8) := by
  refine ⟨?_, rfl, rfl, rfl, rfl, rfl⟩
  intro heap scope m e he
  have hnone : scopeFind heap (scopeRemove heap scope m.id) e.machineId
      = none := by
    rw [he]
    exact scopeFind_scopeRemove heap scope m.id
  simp [saleHandle, scopeRemoveMachine, hnone]

/-- Witness for C9's general conjunct: removing 001 makes a sale for
001 a no-op on the heap. -/
theorem c9_machine_scope_removal_witness :
    saleHandle demoMachines
        (scopeRemoveMachine demoMachines [0, 1, 2]
          { id := "001", stockLevel := 10 })
        (.sale 2 "001")
      = demoMachines :=
  c9_machine_scope_removal.1 demoMachines [0, 1, 2]
    { id := "001", stockLevel := 10 } (.sale 2 "001") rfl

/-- C10: `removeMachine` matches by machine-id equality, not object
identity: the result depends only on the argument's id (for the
filter-based subscribers and for the warning subscriber's map alike); a
scope member whose machine has the given id is removed even when the
argument is a different object, and a member with a different id is
never removed. -/
theorem c10_remove_matches_by_id :
    (∀ (heap : List Machine) (scope : List Nat) (m m2 : Machine),
        m2.id = m.id →
        scopeRemoveMachine heap scope m2 = scopeRemoveMachine heap scope m) ∧
    (∀ (entries : List (String × Nat × Bool)) (m m2 : Machine),
        m2.id = m.id →
        warnRemoveMachine entries m2 = warnRemoveMachine entries m) ∧
    (∀ (heap : List Machine) (scope : List Nat) (m2 : Machine) (r : Nat),
        r ∈ scope →
        (r ∈ scopeRemoveMachine heap scope m2 ↔
          idOfRef heap r ≠ some m2.id)) ∧
    (∀ (entries : List (String × Nat × Bool)) (m2 : Machine) (k : String)
        (v : Nat × Bool), (k, v) ∈ entries → k ≠ m2.id →
        (k, v) ∈ warnRemoveMachine entries m2) ∧
    (∀ (entries : List (String × Nat × Bool)) (m2 : Machine),
        (entries.map Prod.fst).Nodup →
        jmapGet (warnRemoveMachine entries m2) m2.id = none) := by
  refine ⟨?_, ?_, ?_, ?_, ?_⟩
  · intro heap scope m m2 h
    rw [scopeRemoveMachine, scopeRemoveMachine, h]
  · intro entries m m2 h
    rw [warnRemoveMachine, warnRemoveMachine, h]
  · intro heap scope m2 r hr
    rw [scopeRemoveMachine, mem_scopeRemove]
    simp [hr]
  · intro entries m2 k v hm hne
    exact mem_jmapDelete_of_ne entries m2.id k v hm hne
  · intro entries m2 hnd
    exact jmapGet_delete_self entries m2.id hnd

/-- Witness for C10: a fresh `Machine` object with id "001" removes the
original 001 from scope and from the warning map; 002 survives. -/
theorem c10_remove_matches_by_id_witness :
    scopeRemoveMachine demoMachines [0, 1, 2] { id := "001", stockLevel := 99 }
      = scopeRemoveMachine demoMachines [0, 1, 2]
          { id := "001", stockLevel := 10 } ∧
    warnRemoveMachine [("001", 0, false)] { id := "001", stockLevel := 99 }
      = warnRemoveMachine [("001", 0, false)]
          { id := "001", stockLevel := 10 } ∧
    ((0 : Nat) ∈ scopeRemoveMachine demoMachines [0, 1, 2]
        { id := "001", stockLevel := 99 } ↔
      idOfRef demoMachines 0 ≠ some "001") ∧
    ("002", ((1 : Nat), false)) ∈
      warnRemoveMachine [("001", 0, false), ("002", 1, false)]
        { id := "001", stockLevel := 99 } ∧
    jmapGet (warnRemoveMachine [("001", 0, false), ("002", 1, false)]
        { id := "001", stockLevel := 99 }) "001" = none := by
  refine ⟨?_, ?_, ?_, ?_, ?_⟩
  · exact c10_remove_matches_by_id.1 demoMachines [0, 1, 2]
      { id := "001", stockLevel := 10 } { id := "001", stockLevel := 99 } rfl
  · exact c10_remove_matches_by_id.2.1 [("001", 0, false)]
      { id := "001", stockLevel := 10 } { id := "001", stockLevel := 99 } rfl
  · exact c10_remove_matches_by_id.2.2.1 demoMachines [0, 1, 2]
      { id := "001", stockLevel := 99 } 0 (by decide)
  · exact c10_remove_matches_by_id.2.2.2.1
      [("001", 0, false), ("002", 1, false)] { id := "001", stockLevel := 99 }
      "002" (1, false) (by decide) (by decide)
  · exact c10_remove_matches_by_id.2.2.2.2
      [("001", 0, false), ("002", 1, false)] { id := "001", stockLevel := 99 }
      (by decide)

end SimplePubSub
